import Mathlib

/-!
Shallow embedding of the proof-of-stake validator-bookkeeping core
(`proof_of_stake/src/lib.rs`).  The support modules referenced by the
source (`epoched`, `parameters`, `types`, `btree_set`) are not part of
the source tree; their definitions are modelled from the specification
(sections 3, 4.1, 4.2 and 9) and each such definition carries a doc
comment starting with `Modelled from the spec:`.
-/

/-- Epochs are unsigned monotonically increasing ordinals; arithmetic on
them is saturating, which `Nat` subtraction provides. -/
abbrev Epoch := Nat

/-- Modelled from the spec: the `parameters` module is missing from the
source tree.  `PosParams` carries the cap on the active validator set
(named `max_validator_slots` as at its use site in `lib.rs`), the
pipeline length and the unbonding length. -/
structure PosParams where
  max_validator_slots : Nat
  pipeline_length : Nat
  unbonding_length : Nat
deriving DecidableEq, Repr

/-- Modelled from the spec: the `types` module is missing from the source
tree.  Validator lifecycle states; `lib.rs` uses `Pending` and
`Candidate`, the spec also lists `Inactive` and `Jailed`. -/
inductive ValidatorState
  | Pending
  | Candidate
  | Inactive
  | Jailed
deriving DecidableEq, Repr

/-- Modelled from the spec: voting power is an abstract consensus weight;
we represent it by a natural number. -/
abbrev VotingPower := Nat

namespace VotingPower

/-- Modelled from the spec: the exact token-to-voting-power conversion
formula is not shown in the source fragment; the spec directs to treat it
as an injective, deterministic, monotone function of the token amount and
params.  We model it as the identity on token amounts, which satisfies
those requirements. -/
def from_tokens (tokens : Nat) (_params : PosParams) : VotingPower := tokens

end VotingPower

/-- Modelled from the spec: the `types` module is missing from the source
tree.  A validator's address paired with its voting power, the element
type of the validator sets. -/
structure WeightedValidator (A : Type) where
  voting_power : VotingPower
  address : A
deriving DecidableEq, Repr

/-- Modelled from the spec: the ordering of `WeightedValidator` used by
the `BTreeSet`s in `lib.rs`.  The comparison is primarily by voting power
and secondarily by address, so that popping the first element of the set
yields the member with the least voting power (ties broken by the least
address), matching the source comment "Pop the smallest validators from
the active set". -/
def wvLt {A : Type} [LinearOrder A] (x y : WeightedValidator A) : Prop :=
  x.voting_power < y.voting_power ∨
    (x.voting_power = y.voting_power ∧ x.address < y.address)

instance {A : Type} [LinearOrder A] (x y : WeightedValidator A) :
    Decidable (wvLt x y) := by
  unfold wvLt
  infer_instance

/-- Modelled from the spec: the `types` module is missing from the source
tree.  A genesis record: address, staking reward address, initial tokens
and consensus public key.  Token amounts are modelled as `Nat`. -/
structure GenesisValidator (A PK : Type) where
  address : A
  staking_reward_address : A
  tokens : Nat
  consensus_key : PK
deriving DecidableEq, Repr

/-- Modelled from the spec: the `types` module is missing from the source
tree.  A bond: a map from the epoch at which tokens were contributed to
the contributed amount, modelled as an association list. -/
structure Bond where
  delta : List (Epoch × Nat)
deriving DecidableEq, Repr

/-- Modelled from the spec: the `types` module is missing from the source
tree.  Identifier of a bond: the source (bond owner) and the validator
bonded to. -/
structure BondId (A : Type) where
  source : A
  validator : A
deriving DecidableEq, Repr

/-- Modelled from the spec: the `types` module is missing from the source
tree.  The validator set: active and inactive partitions.  The Rust
`BTreeSet<WeightedValidator>` is modelled as a list kept strictly sorted
by `wvLt` (hence duplicate-free), its canonical form. -/
structure ValidatorSet (A : Type) where
  active : List (WeightedValidator A)
  inactive : List (WeightedValidator A)
deriving DecidableEq, Repr

instance {A : Type} : Inhabited (ValidatorSet A) := ⟨⟨[], []⟩⟩

/-- Modelled from the spec: insertion into a `BTreeSet` of weighted
validators, on the strictly-sorted-list model.  Inserting an element that
is already present leaves the set unchanged. -/
def insertWV {A : Type} [LinearOrder A] (x : WeightedValidator A) :
    List (WeightedValidator A) → List (WeightedValidator A)
  | [] => [x]
  | y :: ys =>
    if wvLt x y then x :: y :: ys
    else if x = y then y :: ys
    else y :: insertWV x ys

/-- Sum of the voting powers of the members of a list of weighted
validators. -/
def sumPower {A : Type} (l : List (WeightedValidator A)) : Nat :=
  (l.map (fun w => w.voting_power)).sum

section WvLtLemmas

variable {A : Type} [LinearOrder A]

theorem wvLt_irrefl (x : WeightedValidator A) : ¬ wvLt x x := by
  rintro (h | ⟨-, h⟩) <;> exact lt_irrefl _ h

theorem wvLt_trans {x y z : WeightedValidator A} (h₁ : wvLt x y)
    (h₂ : wvLt y z) : wvLt x z := by
  rcases h₁ with h₁ | ⟨e₁, h₁⟩ <;> rcases h₂ with h₂ | ⟨e₂, h₂⟩
  · exact Or.inl (lt_trans h₁ h₂)
  · exact Or.inl (e₂ ▸ h₁)
  · exact Or.inl (e₁ ▸ h₂)
  · exact Or.inr ⟨e₁.trans e₂, lt_trans h₁ h₂⟩

theorem wvLt_asymm {x y : WeightedValidator A} (h : wvLt x y) :
    ¬ wvLt y x := fun h' => wvLt_irrefl x (wvLt_trans h h')

theorem wvLt_trichotomy (x y : WeightedValidator A) :
    wvLt x y ∨ x = y ∨ wvLt y x := by
  rcases lt_trichotomy x.voting_power y.voting_power with h | h | h
  · exact Or.inl (Or.inl h)
  · rcases lt_trichotomy x.address y.address with h' | h' | h'
    · exact Or.inl (Or.inr ⟨h, h'⟩)
    · refine Or.inr (Or.inl ?_)
      cases x; cases y
      simp only at h h'
      simp [h, h']
    · exact Or.inr (Or.inr (Or.inr ⟨h.symm, h'⟩))
  · exact Or.inr (Or.inr (Or.inl h))

theorem wvLt_power_le {x y : WeightedValidator A} (h : wvLt x y) :
    x.voting_power ≤ y.voting_power := by
  rcases h with h | ⟨h, -⟩
  · exact le_of_lt h
  · exact le_of_eq h

end WvLtLemmas

/-- Modelled from the spec: the `epoched` module is missing from the
source tree.  The dynamic epoch offset kind, selecting between the
pipeline and unbonding horizons (spec section 9 directs to model the
offset as an explicit enumerated parameter); the variant names follow
the imports in `lib.rs`. -/
inductive DynEpochOffset
  | PipelineLen
  | UnboundingLen
deriving DecidableEq, Repr

/-- Modelled from the spec: the length in epochs of a dynamic offset. -/
def DynEpochOffset.value : DynEpochOffset → PosParams → Nat
  | .PipelineLen, params => params.pipeline_length
  | .UnboundingLen, params => params.unbonding_length

/-- Modelled from the spec: the `epoched` module is missing from the
source tree.  An `EpochedValue` is an ordered mapping from epochs to
values, modelled as an association list kept strictly sorted by epoch
(at most one entry per epoch). -/
structure Epoched (T : Type) where
  entries : List (Epoch × T)
deriving DecidableEq, Repr

/-- Insert-or-overwrite the entry at epoch `k` in a sorted entry list. -/
def setEntry {T : Type} (k : Epoch) (v : T) :
    List (Epoch × T) → List (Epoch × T)
  | [] => [(k, v)]
  | (k', v') :: rest =>
    if k < k' then (k, v) :: (k', v') :: rest
    else if k = k' then (k, v) :: rest
    else (k', v') :: setEntry k v rest

/-- Drop leading entries of a sorted entry list that are superseded by a
later entry at or before `cutoff`; the latest entry at or before the
cutoff is always retained, so every query inside the window stays
answerable. -/
def pruneEntries {T : Type} (cutoff : Epoch) :
    List (Epoch × T) → List (Epoch × T)
  | [] => []
  | [x] => [x]
  | x :: y :: rest =>
    if y.1 ≤ cutoff then pruneEntries cutoff (y :: rest) else x :: y :: rest

/-- The latest entry of a sorted entry list at or before epoch `e`, if
any. -/
def lookupLE {T : Type} (e : Epoch) : List (Epoch × T) → Option T
  | [] => none
  | (k, v) :: rest =>
    if e < k then none
    else
      match lookupLE e rest with
      | some w => some w
      | none => some v

namespace Epoched

/-- Modelled from the spec: a single-entry history valid from `epoch0`
onward, used only during network bootstrap. -/
def init_at_genesis {T : Type} (value : T) (epoch0 : Epoch) : Epoched T :=
  ⟨[(epoch0, value)]⟩

/-- Modelled from the spec: a single-entry history valid starting at
`epoch + params.pipeline_length`. -/
def init {T : Type} (value : T) (epoch : Epoch) (params : PosParams) :
    Epoched T :=
  ⟨[(epoch + params.pipeline_length, value)]⟩

/-- Modelled from the spec: `get` returns the entry with the greatest
epoch at or before the queried epoch, and `none` when the query falls
before every retained entry. -/
def get {T : Type} (ep : Epoched T) (e : Epoch) : Option T :=
  lookupLE e ep.entries

/-- Modelled from the spec: `set` inserts an entry effective at
`epoch + params.pipeline_length` (a second write at the same epoch
overwrites), leaves entries effective at earlier epochs untouched, and
prunes entries superseded before `epoch - params.unbonding_length`. -/
def set {T : Type} (value : T) (epoch : Epoch) (params : PosParams)
    (ep : Epoched T) : Epoched T :=
  ⟨pruneEntries (epoch - params.unbonding_length)
    (setEntry (epoch + params.pipeline_length) value ep.entries)⟩

/-- Modelled from the spec: `update_from_offset` resolves the value
effective at `epoch + offset`, applies the transformation to a copy and
commits the result at that same future epoch.  When no entry is
effective there (and hence none is effective at `epoch` either, the
fallback the spec mentions), the transformation is applied to the
default value. -/
def update_from_offset {T : Type} [Inhabited T] (update_value : T → T)
    (epoch : Epoch) (offset : DynEpochOffset) (params : PosParams)
    (ep : Epoched T) : Epoched T :=
  let target := epoch + offset.value params
  ⟨setEntry target (update_value ((ep.get target).getD default)) ep.entries⟩

end Epoched

/-- Modelled from the spec: the `epoched` module is missing from the
source tree.  An `EpochedDelta` is an ordered mapping from epochs to
increments, modelled like `Epoched` as a strictly sorted association
list. -/
structure EpochedDelta (T : Type) where
  entries : List (Epoch × T)
deriving DecidableEq, Repr

namespace EpochedDelta

/-- Modelled from the spec: a single-increment history whose first delta
is recorded at `epoch0`. -/
def init_at_genesis {T : Type} (value : T) (epoch0 : Epoch) :
    EpochedDelta T :=
  ⟨[(epoch0, value)]⟩

/-- Modelled from the spec: the effective total at an epoch is the sum
of all increments recorded at or before it. -/
def get {T : Type} [AddCommMonoid T] (d : EpochedDelta T) (e : Epoch) : T :=
  ((d.entries.filter (fun p => p.1 ≤ e)).map (fun p => p.2)).sum

end EpochedDelta

/-- The weighted-validator entry a genesis record contributes to the
validator set (`lib.rs` lines 308-313). -/
def genesisWeighted {A PK : Type} (params : PosParams)
    (v : GenesisValidator A PK) : WeightedValidator A :=
  ⟨VotingPower.from_tokens v.tokens params, v.address⟩

/-- The accumulation loop of `init_genesis_data` (`lib.rs` lines
301-314): every genesis record is inserted into the (unbounded) active
set. -/
def genesisActive {A PK : Type} [LinearOrder A] (params : PosParams)
    (validators : List (GenesisValidator A PK)) :
    List (WeightedValidator A) :=
  validators.foldl (fun acc v => insertWV (genesisWeighted params v) acc) []

/-- The running total-voting-power accumulation of `init_genesis_data`
(`lib.rs` lines 303-309). -/
def genesisTotalPower {A PK : Type} (params : PosParams)
    (validators : List (GenesisValidator A PK)) : VotingPower :=
  validators.foldl
    (fun acc v => acc + VotingPower.from_tokens v.tokens params) 0

/-- The trimming loop of `init_genesis_data` (`lib.rs` lines 315-326):
while the active set exceeds `max_validator_slots`, pop its smallest
member and insert it into the inactive set. -/
def trimActive {A : Type} [LinearOrder A] (max : Nat) :
    List (WeightedValidator A) → List (WeightedValidator A) →
      List (WeightedValidator A) × List (WeightedValidator A)
  | [], inactive => ([], inactive)
  | x :: xs, inactive =>
    if (x :: xs).length ≤ max then (x :: xs, inactive)
    else trimActive max xs (insertWV x inactive)

/-- The validator set produced by `init_genesis_data` (`lib.rs` lines
301-327). -/
def genesisValidatorSet {A PK : Type} [LinearOrder A] (params : PosParams)
    (validators : List (GenesisValidator A PK)) : ValidatorSet A :=
  let p := trimActive params.max_validator_slots
    (genesisActive params validators) []
  ⟨p.1, p.2⟩

/-- Per-validator genesis data (`lib.rs` struct `GenesisValidatorData`,
lines 251-268).  Token changes are modelled as `Int`. -/
structure GenesisValidatorData (A PK : Type) where
  address : A
  staking_reward_address : A
  consensus_key : Epoched PK
  state : Epoched ValidatorState
  total_deltas : EpochedDelta Int
  voting_power : Epoched VotingPower
  bond : BondId A × Epoched Bond
deriving Repr

/-- The per-validator map of `init_genesis_data` (`lib.rs` lines
333-370). -/
def genesisValidatorData {A PK : Type} (params : PosParams)
    (current_epoch : Epoch) (v : GenesisValidator A PK) :
    GenesisValidatorData A PK :=
  { address := v.address
    staking_reward_address := v.staking_reward_address
    consensus_key := Epoched.init_at_genesis v.consensus_key current_epoch
    state := Epoched.init_at_genesis ValidatorState.Candidate current_epoch
    total_deltas :=
      EpochedDelta.init_at_genesis (Int.ofNat v.tokens) current_epoch
    voting_power :=
      Epoched.init_at_genesis
        (VotingPower.from_tokens v.tokens params) current_epoch
    bond :=
      (⟨v.address, v.address⟩,
        Epoched.init_at_genesis ⟨[(current_epoch, v.tokens)]⟩ current_epoch) }

/-- The result of `init_genesis_data` (`lib.rs` struct `GenesisData`,
lines 235-250); the lazy validator iterator is modelled as a list. -/
structure GenesisData (A PK : Type) where
  validators : List (GenesisValidatorData A PK)
  validator_set : Epoched (ValidatorSet A)
  total_voting_power : Epoched VotingPower
deriving Repr

/-- `init_genesis_data` (`lib.rs` lines 279-377). -/
def init_genesis_data {A PK : Type} [LinearOrder A] (params : PosParams)
    (validators : List (GenesisValidator A PK)) (current_epoch : Epoch) :
    GenesisData A PK :=
  { validators := validators.map (genesisValidatorData params current_epoch)
    validator_set :=
      Epoched.init_at_genesis (genesisValidatorSet params validators)
        current_epoch
    total_voting_power :=
      Epoched.init_at_genesis (genesisTotalPower params validators)
        current_epoch }

/-- The result of `become_validator_data` (`lib.rs` struct
`BecomeValidatorData`, lines 270-276). -/
structure BecomeValidatorData (PK : Type) where
  consensus_key : Epoched PK
  state : Epoched ValidatorState
deriving Repr

/-- `become_validator_data` (`lib.rs` lines 380-412).  The Rust function
mutates the validator set through a `&mut` reference; the model returns
the updated set as the second component. -/
def become_validator_data {A PK : Type} [LinearOrder A] (params : PosParams)
    (address : A) (consensus_key : PK)
    (validator_set : Epoched (ValidatorSet A)) (current_epoch : Epoch) :
    BecomeValidatorData PK × Epoched (ValidatorSet A) :=
  let ck := Epoched.init consensus_key current_epoch params
  let st0 := Epoched.init ValidatorState.Pending current_epoch params
  let st := Epoched.set ValidatorState.Candidate current_epoch params st0
  let vs := Epoched.update_from_offset
    (fun vset =>
      { vset with inactive := insertWV ⟨0, address⟩ vset.inactive })
    current_epoch DynEpochOffset.PipelineLen params validator_set
  (⟨ck, st⟩, vs)

/-- `become_validator` error type (`lib.rs` lines 230-233). -/
inductive BecomeValidatorError
  | AlreadyValidator
deriving DecidableEq, Repr

/-- The storage held behind the `Pos` trait (`lib.rs` lines 24-226): one
field per storage key of the interface, plus a log of the token
transfers requested through the `transfer` collaborator operation.
Per-validator keys are modelled as functions from addresses. -/
structure PosState (A PK : Type) where
  params : PosParams
  validator_staking_reward_address : A → Option A
  validator_consensus_key : A → Option (Epoched PK)
  validator_state : A → Option (Epoched ValidatorState)
  validator_total_deltas : A → Option (EpochedDelta Int)
  validator_voting_power : A → Option (Epoched VotingPower)
  bonds : BondId A → Option (Epoched Bond)
  validator_set : Epoched (ValidatorSet A)
  total_voting_power : Epoched VotingPower
  transfers : List (A × A × A)

namespace PosState

/-- `Pos::transfer` (`lib.rs` lines 128-133), modelled as appending to
the transfer log. -/
def transfer {A PK : Type} (s : PosState A PK) (token source target : A) :
    PosState A PK :=
  { s with transfers := (token, source, target) :: s.transfers }

/-- `Pos::is_validator` (`lib.rs` lines 223-225): an address is a
validator when it has some recorded state. -/
def is_validator {A PK : Type} (s : PosState A PK) (address : A) : Bool :=
  (s.validator_state address).isSome

/-- `Pos::become_validator` (`lib.rs` lines 189-219).  Returns the
result together with the storage state after the call. -/
def become_validator {A PK : Type} [LinearOrder A] [DecidableEq A]
    (s : PosState A PK) (address staking_reward_address : A)
    (consensus_key : PK) (current_epoch : Epoch) :
    Except BecomeValidatorError Unit × PosState A PK :=
  let params := s.params
  let validator_set := s.validator_set
  if s.is_validator address then (Except.error .AlreadyValidator, s)
  else
    let d := become_validator_data params address consensus_key
      validator_set current_epoch
    (Except.ok (),
      { s with
        validator_staking_reward_address :=
          Function.update s.validator_staking_reward_address address
            (some staking_reward_address)
        validator_consensus_key :=
          Function.update s.validator_consensus_key address
            (some d.1.consensus_key)
        validator_state :=
          Function.update s.validator_state address (some d.1.state)
        validator_set := d.2 })

end PosState

/-- The offset type tags of the `epoched` module as they appear in the
`Pos` trait's declarations (`lib.rs` lines 11-14). -/
inductive OffsetTag
  | pipelineLen
  | unboundingLen
deriving DecidableEq, Repr

/-- The Rust type expressions appearing in the `Pos` trait's storage
read/write declarations (`lib.rs` lines 56-126), embedded as a syntax
tree so the declared types can be compared. -/
inductive StorageTy
  | posParams
  | address
  | publicKey
  | votingPower
  | tokenAmount
  | tokenChange
  | validatorState
  | validatorSetTy
  | bondTy (t : StorageTy)
  | epoched (t : StorageTy) (off : OffsetTag)
  | epochedDelta (t : StorageTy) (off : OffsetTag)
deriving DecidableEq, Repr

/-- The storage keys of the `Pos` trait interface. -/
inductive PosKey
  | paramsKey
  | stakingRewardAddress
  | consensusKey
  | validatorStateKey
  | validatorTotalDeltas
  | validatorVotingPower
  | bondKey
  | validatorSetKey
  | totalVotingPower
deriving DecidableEq, Repr

/-- The value type stored by each `write_*` method of the `Pos` trait
(`lib.rs` lines 56-94). -/
def writeTy : PosKey → StorageTy
  | .paramsKey => .posParams
  | .stakingRewardAddress => .address
  | .consensusKey => .epoched .publicKey .pipelineLen
  | .validatorStateKey => .epoched .validatorState .pipelineLen
  | .validatorTotalDeltas => .epochedDelta .tokenChange .unboundingLen
  | .validatorVotingPower => .epoched .votingPower .unboundingLen
  | .bondKey => .epoched (.bondTy .tokenAmount) .pipelineLen
  | .validatorSetKey => .epoched .validatorSetTy .unboundingLen
  | .totalVotingPower => .epoched .votingPower .unboundingLen

/-- The value type returned by each `read_*` method of the `Pos` trait
(`lib.rs` lines 96-126), with the `Option` wrapper stripped where
present.  In particular, `read_validator_total_deltas` is declared at
lines 109-112 to return `Epoched<TokenChange, OffsetUnboundingLen>` and
`read_total_voting_power` is declared at lines 124-126 to return
`Epoched<Bond<TokenAmount>, OffsetPipelineLen>`. -/
def readTy : PosKey → StorageTy
  | .paramsKey => .posParams
  | .stakingRewardAddress => .address
  | .consensusKey => .epoched .publicKey .pipelineLen
  | .validatorStateKey => .epoched .validatorState .pipelineLen
  | .validatorTotalDeltas => .epoched .tokenChange .unboundingLen
  | .validatorVotingPower => .epoched .votingPower .unboundingLen
  | .bondKey => .epoched (.bondTy .tokenAmount) .pipelineLen
  | .validatorSetKey => .epoched .validatorSetTy .unboundingLen
  | .totalVotingPower => .epoched (.bondTy .tokenAmount) .pipelineLen

/-- Sample parameters used by the concrete scenarios: two active slots,
pipeline length 2, unbonding length 10. -/
def sampleParams : PosParams := ⟨2, 2, 10⟩

/-- Sample validator set storage: an empty set recorded at genesis. -/
def sampleEmptySet : Epoched (ValidatorSet Nat) :=
  Epoched.init_at_genesis ⟨[], []⟩ 0

/-- Sample genesis list: three validators with tokens 100, 50 and 10. -/
def sampleGenesisList : List (GenesisValidator Nat Nat) :=
  [⟨1, 1, 100, 0⟩, ⟨2, 2, 50, 0⟩, ⟨3, 3, 10, 0⟩]

/-- Sample storage state in which no address has any recorded validator
data. -/
def sampleStateNone : PosState Nat Nat :=
  { params := sampleParams
    validator_staking_reward_address := fun _ => none
    validator_consensus_key := fun _ => none
    validator_state := fun _ => none
    validator_total_deltas := fun _ => none
    validator_voting_power := fun _ => none
    bonds := fun _ => none
    validator_set := sampleEmptySet
    total_voting_power := Epoched.init_at_genesis 0 0
    transfers := [] }

/-- Sample storage state in which address 0 already has a recorded
validator state. -/
def sampleStateValidator : PosState Nat Nat :=
  { sampleStateNone with
    validator_state := fun a =>
      if a = 0 then some (Epoched.init_at_genesis ValidatorState.Candidate 0)
      else none }

/-- A genesis list containing a duplicated zero-token record for address
4 together with a distinct five-token record for the same address. -/
def cexDupList : List (GenesisValidator Nat Nat) :=
  [⟨4, 4, 0, 0⟩, ⟨4, 4, 0, 0⟩, ⟨4, 4, 5, 0⟩]

/-- A genesis list consisting of the same five-token record for address
4 twice, written as the appended decomposition used by the
duplicate-record theorem. -/
def dupPairList : List (GenesisValidator Nat Nat) :=
  [⟨4, 4, 5, 0⟩] ++ ⟨4, 4, 5, 0⟩ :: []


section SortedSetLemmas

variable {A : Type} [LinearOrder A]

theorem sumPower_nil : sumPower ([] : List (WeightedValidator A)) = 0 := rfl

theorem sumPower_cons (x : WeightedValidator A)
    (l : List (WeightedValidator A)) :
    sumPower (x :: l) = x.voting_power + sumPower l := by
  simp [sumPower]

theorem sumPower_append (l₁ l₂ : List (WeightedValidator A)) :
    sumPower (l₁ ++ l₂) = sumPower l₁ + sumPower l₂ := by
  simp [sumPower]

theorem insertWV_cons_lt {x y : WeightedValidator A}
    (ys : List (WeightedValidator A)) (h : wvLt x y) :
    insertWV x (y :: ys) = x :: y :: ys := by
  rw [insertWV, if_pos h]

theorem insertWV_cons_eq {x y : WeightedValidator A}
    (ys : List (WeightedValidator A)) (h : x = y) :
    insertWV x (y :: ys) = y :: ys := by
  subst h
  rw [insertWV, if_neg (wvLt_irrefl x), if_pos rfl]

theorem insertWV_cons_gt {x y : WeightedValidator A}
    (ys : List (WeightedValidator A)) (h : wvLt y x) :
    insertWV x (y :: ys) = y :: insertWV x ys := by
  have h1 : ¬ wvLt x y := wvLt_asymm h
  have h2 : x ≠ y := by
    rintro rfl
    exact wvLt_irrefl x h
  rw [insertWV, if_neg h1, if_neg h2]

theorem mem_insertWV {x z : WeightedValidator A} :
    ∀ {l : List (WeightedValidator A)}, z ∈ insertWV x l ↔ z = x ∨ z ∈ l := by
  intro l
  induction l with
  | nil => simp [insertWV]
  | cons y ys ih =>
    rcases wvLt_trichotomy x y with h | h | h
    · rw [insertWV_cons_lt ys h]
      simp
    · subst h
      rw [insertWV_cons_eq ys rfl]
      simp only [List.mem_cons]
      tauto
    · rw [insertWV_cons_gt ys h]
      simp only [List.mem_cons, ih]
      tauto

theorem pairwise_insertWV {x : WeightedValidator A} :
    ∀ {l : List (WeightedValidator A)}, l.Pairwise wvLt →
      (insertWV x l).Pairwise wvLt := by
  intro l
  induction l with
  | nil =>
    intro _
    simp [insertWV]
  | cons y ys ih =>
    intro h
    rcases List.pairwise_cons.mp h with ⟨hy, hys⟩
    rcases wvLt_trichotomy x y with h1 | h1 | h1
    · rw [insertWV_cons_lt ys h1]
      refine List.pairwise_cons.mpr ⟨?_, h⟩
      intro a ha
      rcases List.mem_cons.mp ha with rfl | ha
      · exact h1
      · exact wvLt_trans h1 (hy a ha)
    · rw [insertWV_cons_eq ys h1]
      exact h
    · rw [insertWV_cons_gt ys h1]
      refine List.pairwise_cons.mpr ⟨?_, ih hys⟩
      intro a ha
      rcases mem_insertWV.mp ha with rfl | ha
      · exact h1
      · exact hy a ha

theorem insertWV_of_mem {x : WeightedValidator A} :
    ∀ {l : List (WeightedValidator A)}, l.Pairwise wvLt → x ∈ l →
      insertWV x l = l := by
  intro l
  induction l with
  | nil =>
    intro _ hx
    cases hx
  | cons y ys ih =>
    intro hs hx
    rcases List.pairwise_cons.mp hs with ⟨hy, hys⟩
    rcases List.mem_cons.mp hx with rfl | hx
    · exact insertWV_cons_eq ys rfl
    · rw [insertWV_cons_gt ys (hy x hx), ih hys hx]

theorem perm_insertWV {x : WeightedValidator A} :
    ∀ {l : List (WeightedValidator A)}, x ∉ l →
      List.Perm (insertWV x l) (x :: l) := by
  intro l
  induction l with
  | nil =>
    intro _
    simp [insertWV]
  | cons y ys ih =>
    intro hx
    have hxy : x ≠ y := fun h => hx (h ▸ List.mem_cons_self y ys)
    have hxys : x ∉ ys := fun h => hx (List.mem_cons_of_mem y h)
    rcases wvLt_trichotomy x y with h1 | h1 | h1
    · rw [insertWV_cons_lt ys h1]
    · exact absurd h1 hxy
    · rw [insertWV_cons_gt ys h1]
      exact ((ih hxys).cons y).trans (List.Perm.swap x y ys)

theorem sumPower_insertWV_le (x : WeightedValidator A) :
    ∀ (l : List (WeightedValidator A)),
      sumPower (insertWV x l) ≤ x.voting_power + sumPower l := by
  intro l
  induction l with
  | nil => simp [insertWV, sumPower]
  | cons y ys ih =>
    rcases wvLt_trichotomy x y with h1 | h1 | h1
    · rw [insertWV_cons_lt ys h1]
      simp only [sumPower_cons]
      omega
    · rw [insertWV_cons_eq ys h1, sumPower_cons]
      omega
    · rw [insertWV_cons_gt ys h1, sumPower_cons, sumPower_cons]
      omega

theorem nodup_of_pairwise_wvLt {l : List (WeightedValidator A)}
    (h : l.Pairwise wvLt) : l.Nodup := by
  refine h.imp ?_
  intro a b hab
  rintro rfl
  exact wvLt_irrefl a hab

theorem eq_of_pairwise_wvLt_of_mem_iff :
    ∀ {l₁ l₂ : List (WeightedValidator A)}, l₁.Pairwise wvLt →
      l₂.Pairwise wvLt → (∀ z, z ∈ l₁ ↔ z ∈ l₂) → l₁ = l₂ := by
  intro l₁
  induction l₁ with
  | nil =>
    intro l₂ _ _ hmem
    cases l₂ with
    | nil => rfl
    | cons y ys =>
      exact absurd ((hmem y).mpr (List.mem_cons_self y ys)) (by simp)
  | cons x xs ih =>
    intro l₂ h₁ h₂ hmem
    cases l₂ with
    | nil => exact absurd ((hmem x).mp (List.mem_cons_self x xs)) (by simp)
    | cons y ys =>
      rcases List.pairwise_cons.mp h₁ with ⟨hx, hxs⟩
      rcases List.pairwise_cons.mp h₂ with ⟨hy, hys⟩
      have hxy : x = y := by
        rcases List.mem_cons.mp ((hmem x).mp (List.mem_cons_self x xs)) with
          h | h
        · exact h
        · rcases List.mem_cons.mp ((hmem y).mpr (List.mem_cons_self y ys)) with
            h' | h'
          · exact h'.symm
          · exact absurd (hy x h) (wvLt_asymm (hx y h'))
      subst hxy
      have htail : ∀ z, z ∈ xs ↔ z ∈ ys := by
        intro z
        constructor
        · intro hz
          rcases List.mem_cons.mp ((hmem z).mp (List.mem_cons_of_mem x hz))
            with rfl | h
          · exact absurd (hx z hz) (wvLt_irrefl z)
          · exact h
        · intro hz
          rcases List.mem_cons.mp ((hmem z).mpr (List.mem_cons_of_mem x hz))
            with rfl | h
          · exact absurd (hy z hz) (wvLt_irrefl z)
          · exact h
      rw [ih hxs hys htail]

end SortedSetLemmas

section GenesisFoldLemmas

variable {A PK : Type} [LinearOrder A]

theorem pairwise_genesisFold (params : PosParams) :
    ∀ (l : List (GenesisValidator A PK)) (acc : List (WeightedValidator A)),
      acc.Pairwise wvLt →
      (l.foldl (fun acc v => insertWV (genesisWeighted params v) acc)
        acc).Pairwise wvLt := by
  intro l
  induction l with
  | nil =>
    intro acc h
    exact h
  | cons v vs ih =>
    intro acc h
    exact ih _ (pairwise_insertWV h)

theorem mem_genesisFold (params : PosParams) :
    ∀ (l : List (GenesisValidator A PK)) (acc : List (WeightedValidator A))
      (z : WeightedValidator A),
      z ∈ l.foldl (fun acc v => insertWV (genesisWeighted params v) acc) acc ↔
        z ∈ acc ∨ ∃ v ∈ l, z = genesisWeighted params v := by
  intro l
  induction l with
  | nil =>
    intro acc z
    simp
  | cons v vs ih =>
    intro acc z
    rw [List.foldl_cons, ih]
    simp only [mem_insertWV, List.mem_cons]
    constructor
    · rintro ((rfl | hz) | ⟨w, hw, rfl⟩)
      · exact Or.inr ⟨v, Or.inl rfl, rfl⟩
      · exact Or.inl hz
      · exact Or.inr ⟨w, Or.inr hw, rfl⟩
    · rintro (hz | ⟨w, (rfl | hw), rfl⟩)
      · exact Or.inl (Or.inr hz)
      · exact Or.inl (Or.inl rfl)
      · exact Or.inr ⟨w, hw, rfl⟩

theorem sumPower_genesisFold_le (params : PosParams) :
    ∀ (l : List (GenesisValidator A PK)) (acc : List (WeightedValidator A)),
      sumPower
          (l.foldl (fun acc v => insertWV (genesisWeighted params v) acc)
            acc) ≤
        sumPower acc +
          (l.map (fun v => VotingPower.from_tokens v.tokens params)).sum := by
  intro l
  induction l with
  | nil =>
    intro acc
    simp
  | cons v vs ih =>
    intro acc
    rw [List.foldl_cons]
    refine le_trans (ih _) ?_
    have hins := sumPower_insertWV_le (genesisWeighted params v) acc
    simp only [List.map_cons, List.sum_cons, genesisWeighted] at hins ⊢
    omega

theorem mem_genesisActive (params : PosParams)
    (l : List (GenesisValidator A PK)) (z : WeightedValidator A) :
    z ∈ genesisActive params l ↔ ∃ v ∈ l, z = genesisWeighted params v := by
  rw [genesisActive, mem_genesisFold]
  simp

theorem pairwise_genesisActive (params : PosParams)
    (l : List (GenesisValidator A PK)) :
    (genesisActive params l).Pairwise wvLt :=
  pairwise_genesisFold params l [] (List.Pairwise.nil)

theorem foldl_add_eq_sum {α : Type} (f : α → Nat) :
    ∀ (l : List α) (n : Nat),
      l.foldl (fun acc v => acc + f v) n = n + (l.map f).sum := by
  intro l
  induction l with
  | nil =>
    intro n
    simp
  | cons v vs ih =>
    intro n
    rw [List.foldl_cons, ih]
    simp only [List.map_cons, List.sum_cons]
    omega

theorem genesisTotalPower_eq_sum (params : PosParams)
    (l : List (GenesisValidator A PK)) :
    genesisTotalPower params l =
      (l.map (fun v => VotingPower.from_tokens v.tokens params)).sum := by
  rw [genesisTotalPower, foldl_add_eq_sum, Nat.zero_add]

end GenesisFoldLemmas

section TrimLemmas

variable {A : Type} [LinearOrder A]

theorem trimActive_length_le (max : Nat) :
    ∀ (a i : List (WeightedValidator A)),
      (trimActive max a i).1.length ≤ max := by
  intro a
  induction a with
  | nil =>
    intro i
    simp [trimActive]
  | cons x xs ih =>
    intro i
    rw [trimActive]
    by_cases h : (x :: xs).length ≤ max
    · rw [if_pos h]
      exact h
    · rw [if_neg h]
      exact ih _

theorem trimActive_spec (max : Nat) :
    ∀ (a i : List (WeightedValidator A)), a.Pairwise wvLt →
      i.Pairwise wvLt → (∀ y ∈ i, ∀ z ∈ a, wvLt y z) →
      (trimActive max a i).1.Pairwise wvLt ∧
        (trimActive max a i).2.Pairwise wvLt ∧
        (∀ y ∈ (trimActive max a i).2, ∀ z ∈ (trimActive max a i).1,
          wvLt y z) ∧
        List.Perm ((trimActive max a i).1 ++ (trimActive max a i).2)
          (a ++ i) := by
  intro a
  induction a with
  | nil =>
    intro i _ hi _
    refine ⟨List.Pairwise.nil, hi, ?_, List.Perm.refl _⟩
    intro y _ z hz
    cases hz
  | cons x xs ih =>
    intro i ha hi hinv
    rcases List.pairwise_cons.mp ha with ⟨hx, hxs⟩
    rw [trimActive]
    by_cases h : (x :: xs).length ≤ max
    · rw [if_pos h]
      exact ⟨ha, hi, fun y hy z hz => hinv y hy z hz, List.Perm.refl _⟩
    · rw [if_neg h]
      have hxnotin : x ∉ i := by
        intro hmem
        exact wvLt_irrefl x (hinv x hmem x (List.mem_cons_self x xs))
      have hinv' : ∀ y ∈ insertWV x i, ∀ z ∈ xs, wvLt y z := by
        intro y hy z hz
        rcases mem_insertWV.mp hy with rfl | hy
        · exact hx z hz
        · exact hinv y hy z (List.mem_cons_of_mem x hz)
      obtain ⟨h1, h2, h3, h4⟩ := ih (insertWV x i) hxs
        (pairwise_insertWV hi) hinv'
      refine ⟨h1, h2, h3, ?_⟩
      refine h4.trans ?_
      refine ((perm_insertWV hxnotin).append_left xs).trans ?_
      exact List.perm_middle
end TrimLemmas

/-- Well-formedness of an epoched history: its entries are strictly
sorted by epoch. -/
def entriesSorted {T : Type} (ep : Epoched T) : Prop :=
  ep.entries.Pairwise (fun p q => p.1 < q.1)

instance {T : Type} (ep : Epoched T) : Decidable (entriesSorted ep) := by
  unfold entriesSorted
  infer_instance

section EpochedLemmas

variable {T : Type}

theorem lookupLE_eq_none_of_forall_gt (e : Epoch) :
    ∀ {l : List (Epoch × T)}, (∀ p ∈ l, e < p.1) → lookupLE e l = none := by
  intro l
  induction l with
  | nil =>
    intro _
    rfl
  | cons x rest ih =>
    intro h
    obtain ⟨k, v⟩ := x
    rw [lookupLE, if_pos (h (k, v) (List.mem_cons_self _ _))]

theorem lookupLE_setEntry_of_lt (e k : Epoch) (v : T) (h : e < k) :
    ∀ (l : List (Epoch × T)), lookupLE e (setEntry k v l) = lookupLE e l := by
  intro l
  induction l with
  | nil =>
    rw [setEntry, lookupLE, lookupLE, if_pos h]
  | cons x rest ih =>
    obtain ⟨k', v'⟩ := x
    by_cases h1 : k < k'
    · rw [setEntry, if_pos h1, lookupLE, if_pos h, lookupLE,
        if_pos (lt_trans h h1)]
    · by_cases h2 : k = k'
      · subst h2
        rw [setEntry, if_neg h1, if_pos rfl, lookupLE, if_pos h, lookupLE,
          if_pos h]
      · have hk : k' < k :=
          lt_of_le_of_ne (le_of_not_lt h1) fun he => h2 he.symm
        rw [setEntry, if_neg h1, if_neg h2, lookupLE, lookupLE, ih]

theorem lookupLE_setEntry_self (k : Epoch) (v : T) :
    ∀ {l : List (Epoch × T)}, l.Pairwise (fun p q => p.1 < q.1) →
      lookupLE k (setEntry k v l) = some v := by
  intro l
  induction l with
  | nil =>
    intro _
    rw [setEntry, lookupLE, if_neg (lt_irrefl k)]
    rfl
  | cons x rest ih =>
    intro hs
    obtain ⟨k', v'⟩ := x
    rcases List.pairwise_cons.mp hs with ⟨hk', hrest⟩
    by_cases h1 : k < k'
    · rw [setEntry, if_pos h1, lookupLE, if_neg (lt_irrefl k), lookupLE,
        if_pos h1]
    · by_cases h2 : k = k'
      · subst h2
        have hnone : lookupLE k rest = none := by
          refine lookupLE_eq_none_of_forall_gt k ?_
          intro p hp
          exact hk' p hp
        rw [setEntry, if_neg h1, if_pos rfl, lookupLE, if_neg (lt_irrefl k),
          hnone]
      · have hk : k' < k :=
          lt_of_le_of_ne (le_of_not_lt h1) fun he => h2 he.symm
        rw [setEntry, if_neg h1, if_neg h2, lookupLE, if_neg (not_lt.mpr
          (le_of_lt hk)), ih hrest]

theorem get_init_at_genesis (v : T) (e0 e : Epoch) :
    (Epoched.init_at_genesis v e0).get e =
      if e < e0 then none else some v := by
  rw [Epoched.get, Epoched.init_at_genesis]
  by_cases h : e < e0
  · rw [lookupLE, if_pos h, if_pos h]
  · rw [lookupLE, if_neg h, if_neg h]
    rfl

end EpochedLemmas

/-- C1: for every genesis validator list and params, the validator set
produced by `init_genesis_data` satisfies `active.length ≤
max_validator_slots`, and every member of `active` has voting power at
least that of every member of `inactive`; in particular with two slots
and tokens 100, 50 and 10, the active set holds the validators with
tokens 100 and 50 and the inactive set the one with tokens 10. -/
theorem init_genesis_validator_set_invariant :
    (∀ (A PK : Type) [LinearOrder A] (params : PosParams)
        (l : List (GenesisValidator A PK)) (e : Epoch),
      (init_genesis_data params l e).validator_set =
        Epoched.init_at_genesis (genesisValidatorSet params l) e ∧
      (genesisValidatorSet params l).active.length ≤
        params.max_validator_slots ∧
      (∀ a ∈ (genesisValidatorSet params l).active,
        ∀ i ∈ (genesisValidatorSet params l).inactive,
          i.voting_power ≤ a.voting_power)) ∧
    genesisValidatorSet sampleParams sampleGenesisList =
      ⟨[⟨50, 2⟩, ⟨100, 1⟩], [⟨10, 3⟩]⟩ := by
  constructor
  · intro A PK _ params l e
    refine ⟨rfl, ?_, ?_⟩
    · exact trimActive_length_le params.max_validator_slots
        (genesisActive params l) []
    · intro a ha i hi
      have hspec := trimActive_spec params.max_validator_slots
        (genesisActive params l) [] (pairwise_genesisActive params l)
        List.Pairwise.nil (by intro y hy; cases hy)
      exact wvLt_power_le (hspec.2.2.1 i hi a ha)
  · decide

/-- Witness for C1 at the concrete scenario: the inactive member with
tokens 10 has voting power at most that of the active member with
tokens 100. -/
theorem init_genesis_validator_set_invariant_witness :
    (⟨10, 3⟩ : WeightedValidator Nat).voting_power ≤
      (⟨100, 1⟩ : WeightedValidator Nat).voting_power := by
  have h := init_genesis_validator_set_invariant.1 Nat Nat sampleParams
    sampleGenesisList 0
  exact h.2.2 ⟨100, 1⟩ (by decide) ⟨10, 3⟩ (by decide)

/-- C2: the total voting power produced by `init_genesis_data` equals
the sum, over all input validators, of `VotingPower.from_tokens`, stored
as a single `init_at_genesis` entry at the start epoch. -/
theorem init_genesis_total_voting_power {A PK : Type} [LinearOrder A]
    (params : PosParams) (l : List (GenesisValidator A PK)) (e : Epoch) :
    (init_genesis_data params l e).total_voting_power =
      Epoched.init_at_genesis
        ((l.map (fun v => VotingPower.from_tokens v.tokens params)).sum)
        e := by
  simp only [init_genesis_data, genesisTotalPower_eq_sum]

/-- C3: permuting the genesis validator list yields an identical
validator set and an identical total voting power. -/
theorem init_genesis_order_independent {A PK : Type} [LinearOrder A]
    (params : PosParams) (l₁ l₂ : List (GenesisValidator A PK)) (e : Epoch)
    (h : List.Perm l₁ l₂) :
    (init_genesis_data params l₁ e).validator_set =
      (init_genesis_data params l₂ e).validator_set ∧
    (init_genesis_data params l₁ e).total_voting_power =
      (init_genesis_data params l₂ e).total_voting_power := by
  have hactive : genesisActive params l₁ = genesisActive params l₂ := by
    refine eq_of_pairwise_wvLt_of_mem_iff (pairwise_genesisActive params l₁)
      (pairwise_genesisActive params l₂) ?_
    intro z
    rw [mem_genesisActive, mem_genesisActive]
    constructor
    · rintro ⟨v, hv, rfl⟩
      exact ⟨v, h.mem_iff.mp hv, rfl⟩
    · rintro ⟨v, hv, rfl⟩
      exact ⟨v, h.mem_iff.mpr hv, rfl⟩
  constructor
  · simp only [init_genesis_data, genesisValidatorSet, hactive]
  · simp only [init_genesis_data, genesisTotalPower_eq_sum]
    rw [(h.map (fun v => VotingPower.from_tokens v.tokens params)).sum_eq]

/-- Witness for C3: a transposed three-validator genesis list produces
the same validator set and total voting power. -/
theorem init_genesis_order_independent_witness :
    (init_genesis_data sampleParams
        [⟨2, 2, 50, 0⟩, ⟨1, 1, 100, 0⟩, ⟨3, 3, 10, 0⟩] 0).validator_set =
      (init_genesis_data sampleParams sampleGenesisList 0).validator_set ∧
    (init_genesis_data sampleParams
        [⟨2, 2, 50, 0⟩, ⟨1, 1, 100, 0⟩, ⟨3, 3, 10, 0⟩]
        0).total_voting_power =
      (init_genesis_data sampleParams sampleGenesisList
        0).total_voting_power := by
  have h := init_genesis_order_independent sampleParams
    [⟨2, 2, 50, 0⟩, ⟨1, 1, 100, 0⟩, ⟨3, 3, 10, 0⟩] sampleGenesisList 0
    (by decide)
  exact h

theorem set_init_same_entries {T : Type} (v w : T) (e : Epoch)
    (params : PosParams) :
    (Epoched.set w e params (Epoched.init v e params)).entries =
      [(e + params.pipeline_length, w)] := by
  rw [Epoched.set, Epoched.init, setEntry, if_neg (lt_irrefl _), if_pos rfl]
  rfl

theorem lookupLE_singleton {T : Type} (e k : Epoch) (v : T) :
    lookupLE e [(k, v)] = if e < k then none else some v := by
  by_cases h : e < k
  · rw [lookupLE, if_pos h, if_pos h]
  · rw [lookupLE, if_neg h, if_neg h]
    rfl

theorem become_validator_data_state_entries {A PK : Type} [LinearOrder A]
    (params : PosParams) (address : A) (ck : PK)
    (vs : Epoched (ValidatorSet A)) (e : Epoch) :
    ((become_validator_data params address ck vs e).1.state).entries =
      [(e + params.pipeline_length, ValidatorState.Candidate)] :=
  set_init_same_entries ValidatorState.Pending ValidatorState.Candidate e
    params

/-- C4: `become_validator` returns `AlreadyValidator` exactly when the
address already has a recorded validator state, and in that case the
storage state is left unchanged. -/
theorem become_validator_already_validator_iff {A PK : Type} [LinearOrder A]
    [DecidableEq A] (s : PosState A PK) (address sra : A) (ck : PK)
    (e : Epoch) :
    ((s.become_validator address sra ck e).1 =
        Except.error BecomeValidatorError.AlreadyValidator ↔
      (s.validator_state address).isSome) ∧
    ((s.validator_state address).isSome →
      (s.become_validator address sra ck e).2 = s) := by
  cases hos : s.validator_state address with
  | none => simp [PosState.become_validator, PosState.is_validator, hos]
  | some st => simp [PosState.become_validator, PosState.is_validator, hos]

/-- Witness for C4: on a state where address 0 already has a validator
state, `become_validator` fails with `AlreadyValidator` and leaves the
state unchanged. -/
theorem become_validator_already_validator_iff_witness :
    (sampleStateValidator.become_validator 0 1 0 5).1 =
      Except.error BecomeValidatorError.AlreadyValidator ∧
    (sampleStateValidator.become_validator 0 1 0 5).2 =
      sampleStateValidator := by
  have h := become_validator_already_validator_iff sampleStateValidator 0 1
    (0 : Nat) 5
  exact ⟨h.1.mpr rfl, h.2 rfl⟩

/-- C5: a successful `become_validator` call writes back exactly the
staking-reward address mapping, the consensus key, the validator state
and the validator set; it requests no token transfer and leaves the
bonds, total deltas, per-validator voting power and total voting power
untouched. -/
theorem become_validator_success_frame {A PK : Type} [LinearOrder A]
    [DecidableEq A] (s : PosState A PK) (address sra : A) (ck : PK)
    (e : Epoch) (h : s.validator_state address = none) :
    (s.become_validator address sra ck e).1 = Except.ok () ∧
    (s.become_validator address sra ck e).2.params = s.params ∧
    (s.become_validator address sra ck e).2.validator_total_deltas =
      s.validator_total_deltas ∧
    (s.become_validator address sra ck e).2.validator_voting_power =
      s.validator_voting_power ∧
    (s.become_validator address sra ck e).2.bonds = s.bonds ∧
    (s.become_validator address sra ck e).2.total_voting_power =
      s.total_voting_power ∧
    (s.become_validator address sra ck e).2.transfers = s.transfers ∧
    (∀ a, a ≠ address →
      (s.become_validator address sra ck
          e).2.validator_staking_reward_address a =
        s.validator_staking_reward_address a ∧
      (s.become_validator address sra ck e).2.validator_consensus_key a =
        s.validator_consensus_key a ∧
      (s.become_validator address sra ck e).2.validator_state a =
        s.validator_state a) ∧
    (s.become_validator address sra ck e).2.validator_staking_reward_address
        address = some sra ∧
    (s.become_validator address sra ck e).2.validator_consensus_key
        address =
      some (become_validator_data s.params address ck s.validator_set
        e).1.consensus_key ∧
    (s.become_validator address sra ck e).2.validator_state address =
      some (become_validator_data s.params address ck s.validator_set
        e).1.state ∧
    (s.become_validator address sra ck e).2.validator_set =
      (become_validator_data s.params address ck s.validator_set e).2 := by
  have hcond : s.is_validator address = false := by
    rw [PosState.is_validator, h]
    rfl
  have hbv : s.become_validator address sra ck e =
      (Except.ok (),
        { s with
          validator_staking_reward_address :=
            Function.update s.validator_staking_reward_address address
              (some sra)
          validator_consensus_key :=
            Function.update s.validator_consensus_key address
              (some (become_validator_data s.params address ck
                s.validator_set e).1.consensus_key)
          validator_state :=
            Function.update s.validator_state address
              (some (become_validator_data s.params address ck
                s.validator_set e).1.state)
          validator_set :=
            (become_validator_data s.params address ck s.validator_set
              e).2 }) := by
    rw [PosState.become_validator, hcond]
    rfl
  rw [hbv]
  refine ⟨rfl, rfl, rfl, rfl, rfl, rfl, rfl, ?_,
    Function.update_same address _ _, Function.update_same address _ _,
    Function.update_same address _ _, rfl⟩
  intro a ha
  exact ⟨Function.update_noteq ha _ _, Function.update_noteq ha _ _,
    Function.update_noteq ha _ _⟩

/-- Witness for C5: on a state with no recorded validators, the call
succeeds and the frame conditions hold. -/
theorem become_validator_success_frame_witness :
    (sampleStateNone.become_validator 0 1 0 5).1 = Except.ok () ∧
    (sampleStateNone.become_validator 0 1 0 5).2.params =
      sampleStateNone.params ∧
    (sampleStateNone.become_validator 0 1 0 5).2.validator_total_deltas =
      sampleStateNone.validator_total_deltas ∧
    (sampleStateNone.become_validator 0 1 0 5).2.validator_voting_power =
      sampleStateNone.validator_voting_power ∧
    (sampleStateNone.become_validator 0 1 0 5).2.bonds =
      sampleStateNone.bonds ∧
    (sampleStateNone.become_validator 0 1 0 5).2.total_voting_power =
      sampleStateNone.total_voting_power ∧
    (sampleStateNone.become_validator 0 1 0 5).2.transfers =
      sampleStateNone.transfers ∧
    (∀ a, a ≠ 0 →
      (sampleStateNone.become_validator 0 1 0
          5).2.validator_staking_reward_address a =
        sampleStateNone.validator_staking_reward_address a ∧
      (sampleStateNone.become_validator 0 1 0 5).2.validator_consensus_key
          a = sampleStateNone.validator_consensus_key a ∧
      (sampleStateNone.become_validator 0 1 0 5).2.validator_state a =
        sampleStateNone.validator_state a) ∧
    (sampleStateNone.become_validator 0 1 0
        5).2.validator_staking_reward_address 0 = some 1 ∧
    (sampleStateNone.become_validator 0 1 0 5).2.validator_consensus_key
        0 =
      some (become_validator_data sampleStateNone.params 0 0
        sampleStateNone.validator_set 5).1.consensus_key ∧
    (sampleStateNone.become_validator 0 1 0 5).2.validator_state 0 =
      some (become_validator_data sampleStateNone.params 0 0
        sampleStateNone.validator_set 5).1.state ∧
    (sampleStateNone.become_validator 0 1 0 5).2.validator_set =
      (become_validator_data sampleStateNone.params 0 0
        sampleStateNone.validator_set 5).2 :=
  become_validator_success_frame sampleStateNone 0 1 0 5 rfl

/-- C6 counterexample: with pipeline length 2 and current epoch 5, the
state record created by `become_validator_data` does not answer
`Pending` at epoch 5 (the claim asserts it answers `Pending` throughout
the window [5, 7)); the `set` to `Candidate` lands at the same epoch 7
as the `init` entry and overwrites it, so the `Pending` value is never
observable. -/
theorem become_validator_pending_counterexample :
    ((become_validator_data sampleParams (7 : Nat) (0 : Nat) sampleEmptySet
        5).1.state).get 5 ≠ some ValidatorState.Pending := by
  decide

/-- C6 (amended): after `become_validator_data` at the current epoch
with pipeline length p, the state record answers nothing (no entry is
effective) for every epoch before `current_epoch + p` and `Candidate`
for every epoch at or after `current_epoch + p`. -/
theorem become_validator_state_window {A PK : Type} [LinearOrder A]
    (params : PosParams) (address : A) (ck : PK)
    (vs : Epoched (ValidatorSet A)) (e e' : Epoch) :
    (e' < e + params.pipeline_length →
      ((become_validator_data params address ck vs e).1.state).get e' =
        none) ∧
    (e + params.pipeline_length ≤ e' →
      ((become_validator_data params address ck vs e).1.state).get e' =
        some ValidatorState.Candidate) := by
  have hent := become_validator_data_state_entries params address ck vs e
  constructor <;> intro h
  · rw [Epoched.get, hent, lookupLE_singleton, if_pos h]
  · rw [Epoched.get, hent, lookupLE_singleton, if_neg (not_lt.mpr h)]

/-- Witness for the amended C6 at pipeline length 2 and current epoch 5:
no state is effective at epoch 5, and the state at epoch 7 is
`Candidate`. -/
theorem become_validator_state_window_witness :
    ((become_validator_data sampleParams (7 : Nat) (0 : Nat) sampleEmptySet
        5).1.state).get 5 = none ∧
    ((become_validator_data sampleParams (7 : Nat) (0 : Nat) sampleEmptySet
        5).1.state).get 7 = some ValidatorState.Candidate := by
  refine ⟨?_, ?_⟩
  · exact (become_validator_state_window sampleParams 7 0 sampleEmptySet 5
      5).1 (by decide)
  · exact (become_validator_state_window sampleParams 7 0 sampleEmptySet 5
      7).2 (by decide)

/-- C7: `become_validator_data` updates the validator set through
`update_from_offset` with the pipeline offset kind, inserting the new
address into the inactive partition with zero voting power in the
version effective at `current_epoch + pipeline_length`, and the versions
effective at earlier epochs are unchanged. -/
theorem become_validator_inserts_inactive_at_pipeline {A PK : Type}
    [LinearOrder A] (params : PosParams) (address : A) (ck : PK)
    (vs : Epoched (ValidatorSet A)) (e : Epoch) (hs : entriesSorted vs) :
    (become_validator_data params address ck vs e).2 =
      Epoched.update_from_offset
        (fun vset =>
          { vset with inactive := insertWV ⟨0, address⟩ vset.inactive })
        e DynEpochOffset.PipelineLen params vs ∧
    (∀ e', e' < e + params.pipeline_length →
      ((become_validator_data params address ck vs e).2).get e' =
        vs.get e') ∧
    ((become_validator_data params address ck vs e).2).get
        (e + params.pipeline_length) =
      some
        { active :=
            ((vs.get (e + params.pipeline_length)).getD default).active
          inactive :=
            insertWV ⟨0, address⟩
              ((vs.get
                (e + params.pipeline_length)).getD default).inactive } := by
  refine ⟨rfl, ?_, ?_⟩
  · intro e' he'
    exact lookupLE_setEntry_of_lt e' (e + params.pipeline_length) _ he'
      vs.entries
  · exact lookupLE_setEntry_self (e + params.pipeline_length) _ hs

/-- Witness for C7: inserting address 7 at epoch 5 with pipeline length
2 into an empty genesis validator set yields, at epoch 7, the set whose
inactive partition holds address 7 with zero power. -/
theorem become_validator_inserts_inactive_at_pipeline_witness :
    ((become_validator_data sampleParams (7 : Nat) (0 : Nat) sampleEmptySet
        5).2).get 7 = some ⟨[], [⟨0, 7⟩]⟩ := by
  have h := become_validator_inserts_inactive_at_pipeline sampleParams
    (7 : Nat) (0 : Nat) sampleEmptySet 5 (by decide)
  exact h.2.2

/-- C8: for each genesis validator, `init_genesis_data` produces a
record with the consensus key and the `Candidate` state initialized via
`init_at_genesis` at the start epoch, the total deltas initialized with
the token amount as first delta, the voting power initialized from the
tokens, and a self-bond whose identifier has source and validator equal
to the validator's address and whose delta maps the start epoch to the
token amount. -/
theorem init_genesis_per_validator_records {A PK : Type} [LinearOrder A]
    (params : PosParams) (l : List (GenesisValidator A PK)) (e : Epoch)
    (v : GenesisValidator A PK) (hv : v ∈ l) :
    ∃ d ∈ (init_genesis_data params l e).validators,
      d.address = v.address ∧
      d.staking_reward_address = v.staking_reward_address ∧
      d.consensus_key = Epoched.init_at_genesis v.consensus_key e ∧
      d.state = Epoched.init_at_genesis ValidatorState.Candidate e ∧
      d.total_deltas = EpochedDelta.init_at_genesis (Int.ofNat v.tokens) e ∧
      d.voting_power =
        Epoched.init_at_genesis (VotingPower.from_tokens v.tokens params)
          e ∧
      d.bond.1.source = v.address ∧
      d.bond.1.validator = v.address ∧
      d.bond.2 = Epoched.init_at_genesis ⟨[(e, v.tokens)]⟩ e := by
  refine ⟨genesisValidatorData params e v, ?_, rfl, rfl, rfl, rfl, rfl, rfl,
    rfl, rfl, rfl⟩
  exact List.mem_map_of_mem _ hv

/-- Witness for C8 at the validator with tokens 100 of the sample
genesis list. -/
theorem init_genesis_per_validator_records_witness :
    ∃ d ∈ (init_genesis_data sampleParams sampleGenesisList 0).validators,
      d.address = (⟨1, 1, 100, 0⟩ : GenesisValidator Nat Nat).address ∧
      d.staking_reward_address =
        (⟨1, 1, 100, 0⟩ : GenesisValidator Nat Nat).staking_reward_address ∧
      d.consensus_key =
        Epoched.init_at_genesis
          (⟨1, 1, 100, 0⟩ : GenesisValidator Nat Nat).consensus_key 0 ∧
      d.state = Epoched.init_at_genesis ValidatorState.Candidate 0 ∧
      d.total_deltas =
        EpochedDelta.init_at_genesis
          (Int.ofNat (⟨1, 1, 100, 0⟩ : GenesisValidator Nat Nat).tokens)
          0 ∧
      d.voting_power =
        Epoched.init_at_genesis
          (VotingPower.from_tokens
            (⟨1, 1, 100, 0⟩ : GenesisValidator Nat Nat).tokens sampleParams)
          0 ∧
      d.bond.1.source = (⟨1, 1, 100, 0⟩ : GenesisValidator Nat Nat).address ∧
      d.bond.1.validator =
        (⟨1, 1, 100, 0⟩ : GenesisValidator Nat Nat).address ∧
      d.bond.2 =
        Epoched.init_at_genesis
          ⟨[(0, (⟨1, 1, 100, 0⟩ : GenesisValidator Nat Nat).tokens)]⟩ 0 :=
  init_genesis_per_validator_records sampleParams sampleGenesisList 0
    ⟨1, 1, 100, 0⟩ (by decide)

/-- C9: the `Pos` trait declares `read_total_voting_power` with return
type `Epoched<Bond<TokenAmount>, OffsetPipelineLen>` although
`write_total_voting_power` stores
`Epoched<VotingPower, OffsetUnboundingLen>`, and declares
`read_validator_total_deltas` with return type
`Epoched<TokenChange, OffsetUnboundingLen>` although
`write_validator_total_deltas` stores
`EpochedDelta<TokenChange, OffsetUnboundingLen>`; every other key's read
and write types agree. -/
theorem pos_trait_read_write_type_mismatch :
    readTy PosKey.totalVotingPower ≠ writeTy PosKey.totalVotingPower ∧
    readTy PosKey.validatorTotalDeltas ≠
      writeTy PosKey.validatorTotalDeltas ∧
    readTy PosKey.paramsKey = writeTy PosKey.paramsKey ∧
    readTy PosKey.stakingRewardAddress =
      writeTy PosKey.stakingRewardAddress ∧
    readTy PosKey.consensusKey = writeTy PosKey.consensusKey ∧
    readTy PosKey.validatorStateKey = writeTy PosKey.validatorStateKey ∧
    readTy PosKey.validatorVotingPower =
      writeTy PosKey.validatorVotingPower ∧
    readTy PosKey.bondKey = writeTy PosKey.bondKey ∧
    readTy PosKey.validatorSetKey = writeTy PosKey.validatorSetKey := by
  decide

theorem eq_singleton_of_nodup_of_all_eq {α : Type} :
    ∀ (l : List α) (c : α), l.Nodup → c ∈ l → (∀ x ∈ l, x = c) →
      l = [c] := by
  intro l c hnd hc hall
  cases l with
  | nil => cases hc
  | cons x xs =>
    have hx : x = c := hall x (List.mem_cons_self x xs)
    subst hx
    cases xs with
    | nil => rfl
    | cons y ys =>
      have hy : y = x := hall y (List.mem_cons_of_mem x
        (List.mem_cons_self y ys))
      exfalso
      rcases List.nodup_cons.mp hnd with ⟨hnotin, -⟩
      exact hnotin (hy ▸ List.mem_cons_self y ys)

/-- C10 (amended): if the genesis list contains two records with the
same address and equal token amounts, and every record bearing that
address carries that same token amount, then the validator set produced
by `init_genesis_data` holds a single weighted-validator entry for that
address while the total voting power counts the converted power once per
record; provided that converted power is nonzero, the stored total
strictly exceeds the sum of the members' powers. -/
theorem genesis_duplicate_dedup_excess {A PK : Type} [LinearOrder A]
    (params : PosParams) (u w : List (GenesisValidator A PK))
    (r r' : GenesisValidator A PK) (e : Epoch) (hr' : r' ∈ u)
    (haddr : r'.address = r.address) (htok : r'.tokens = r.tokens)
    (honly : ∀ v ∈ u ++ r :: w, v.address = r.address →
      v.tokens = r.tokens)
    (hpos : 0 < VotingPower.from_tokens r.tokens params) :
    (((genesisValidatorSet params (u ++ r :: w)).active ++
        (genesisValidatorSet params (u ++ r :: w)).inactive).filter
          (fun z => z.address = r.address)).length = 1 ∧
    sumPower ((genesisValidatorSet params (u ++ r :: w)).active ++
        (genesisValidatorSet params (u ++ r :: w)).inactive) <
      genesisTotalPower params (u ++ r :: w) ∧
    (init_genesis_data params (u ++ r :: w) e).total_voting_power =
      Epoched.init_at_genesis (genesisTotalPower params (u ++ r :: w))
        e := by
  have hspec := trimActive_spec params.max_validator_slots
    (genesisActive params (u ++ r :: w)) []
    (pairwise_genesisActive params (u ++ r :: w)) List.Pairwise.nil
    (by intro y hy; cases hy)
  have hperm : List.Perm
      ((genesisValidatorSet params (u ++ r :: w)).active ++
        (genesisValidatorSet params (u ++ r :: w)).inactive)
      (genesisActive params (u ++ r :: w)) := by
    have h4 := hspec.2.2.2
    rw [List.append_nil] at h4
    exact h4
  have hrl : r ∈ u ++ r :: w :=
    List.mem_append.mpr (Or.inr (List.mem_cons_self r w))
  have hfilter_eq :
      (genesisActive params (u ++ r :: w)).filter
          (fun z => z.address = r.address) =
        [⟨VotingPower.from_tokens r.tokens params, r.address⟩] := by
    refine eq_singleton_of_nodup_of_all_eq _ _
      (List.Nodup.filter _
        (nodup_of_pairwise_wvLt (pairwise_genesisActive params _))) ?_ ?_
    · refine List.mem_filter.mpr ⟨?_, by simp⟩
      exact (mem_genesisActive params _ _).mpr ⟨r, hrl, rfl⟩
    · intro z hz
      rcases List.mem_filter.mp hz with ⟨hzS, hzaddr⟩
      rcases (mem_genesisActive params _ _).mp hzS with ⟨v, hvl, rfl⟩
      have hva : v.address = r.address := by
        simpa [genesisWeighted] using hzaddr
      have htkv : v.tokens = r.tokens := honly v hvl hva
      simp [genesisWeighted, htkv, hva]
  have hcount :
      (((genesisValidatorSet params (u ++ r :: w)).active ++
          (genesisValidatorSet params (u ++ r :: w)).inactive).filter
            (fun z => z.address = r.address)).length = 1 := by
    have hlen := (hperm.filter
      (fun z => decide (z.address = r.address))).length_eq
    rw [hfilter_eq] at hlen
    simpa using hlen
  have hins : insertWV (genesisWeighted params r) (genesisActive params u) =
      genesisActive params u := by
    have hmem : genesisWeighted params r ∈ genesisActive params u := by
      rw [mem_genesisActive]
      exact ⟨r', hr', by rw [genesisWeighted, genesisWeighted, haddr, htok]⟩
    exact insertWV_of_mem (pairwise_genesisActive params u) hmem
  have h1 : genesisActive params (u ++ r :: w) =
      w.foldl (fun acc v => insertWV (genesisWeighted params v) acc)
        (genesisActive params u) := by
    rw [genesisActive, List.foldl_append, List.foldl_cons]
    show w.foldl _ (insertWV (genesisWeighted params r)
      (genesisActive params u)) = _
    rw [hins]
  have htot : genesisTotalPower params (u ++ r :: w) =
      (u.map (fun v => VotingPower.from_tokens v.tokens params)).sum +
        (VotingPower.from_tokens r.tokens params +
          (w.map (fun v => VotingPower.from_tokens v.tokens params)).sum) := by
    rw [genesisTotalPower_eq_sum, List.map_append, List.sum_append,
      List.map_cons, List.sum_cons]
  have h2 := sumPower_genesisFold_le params w (genesisActive params u)
  have h3 : sumPower (genesisActive params u) ≤
      (u.map (fun v => VotingPower.from_tokens v.tokens params)).sum := by
    have h3a := sumPower_genesisFold_le params u []
    simpa [sumPower] using h3a
  have hfin : sumPower (genesisActive params (u ++ r :: w)) +
      VotingPower.from_tokens r.tokens params ≤
      genesisTotalPower params (u ++ r :: w) := by
    rw [htot, h1]
    calc
      sumPower (w.foldl
            (fun acc v => insertWV (genesisWeighted params v) acc)
            (genesisActive params u)) +
          VotingPower.from_tokens r.tokens params ≤
          (sumPower (genesisActive params u) +
              (w.map
                (fun v => VotingPower.from_tokens v.tokens params)).sum) +
            VotingPower.from_tokens r.tokens params :=
        Nat.add_le_add_right h2 _
      _ ≤ ((u.map (fun v => VotingPower.from_tokens v.tokens params)).sum +
              (w.map
                (fun v => VotingPower.from_tokens v.tokens params)).sum) +
            VotingPower.from_tokens r.tokens params :=
        Nat.add_le_add_right (Nat.add_le_add_right h3 _) _
      _ = (u.map (fun v => VotingPower.from_tokens v.tokens params)).sum +
            (VotingPower.from_tokens r.tokens params +
              (w.map
                (fun v => VotingPower.from_tokens v.tokens params)).sum) := by
        rw [Nat.add_assoc, Nat.add_comm
          (w.map (fun v => VotingPower.from_tokens v.tokens params)).sum
          (VotingPower.from_tokens r.tokens params)]
  have hsum_eq :
      sumPower ((genesisValidatorSet params (u ++ r :: w)).active ++
          (genesisValidatorSet params (u ++ r :: w)).inactive) =
        sumPower (genesisActive params (u ++ r :: w)) := by
    rw [sumPower, sumPower]
    exact (hperm.map _).sum_eq
  refine ⟨hcount, ?_, rfl⟩
  rw [hsum_eq]
  exact Nat.lt_of_lt_of_le (Nat.lt_add_of_pos_right hpos) hfin

/-- C10 counterexample: `cexDupList` begins with two identical
zero-token records for address 4 (the claim's hypothesis), yet the
resulting validator set holds two entries for that address (the
five-token record for the same address produces a distinct weighted
validator), and the stored total voting power equals — does not exceed —
the sum of the members' powers, because the duplicated record converts
to zero voting power. -/
theorem genesis_duplicate_counterexample :
    cexDupList.take 2 =
      [(⟨4, 4, 0, 0⟩ : GenesisValidator Nat Nat), ⟨4, 4, 0, 0⟩] ∧
    (((genesisValidatorSet sampleParams cexDupList).active ++
        (genesisValidatorSet sampleParams cexDupList).inactive).filter
          (fun z => z.address = 4)).length = 2 ∧
    genesisTotalPower sampleParams cexDupList =
      sumPower ((genesisValidatorSet sampleParams cexDupList).active ++
        (genesisValidatorSet sampleParams cexDupList).inactive) := by
  decide

/-- Witness for the amended C10: a two-record genesis list duplicating a
five-token validator at address 4 keeps one entry for it while the
stored total strictly exceeds the members' summed power. -/
theorem genesis_duplicate_dedup_excess_witness :
    (((genesisValidatorSet sampleParams dupPairList).active ++
        (genesisValidatorSet sampleParams dupPairList).inactive).filter
          (fun z => z.address = 4)).length = 1 ∧
    sumPower ((genesisValidatorSet sampleParams dupPairList).active ++
        (genesisValidatorSet sampleParams dupPairList).inactive) <
      genesisTotalPower sampleParams dupPairList ∧
    (init_genesis_data sampleParams dupPairList 0).total_voting_power =
      Epoched.init_at_genesis (genesisTotalPower sampleParams dupPairList)
        0 :=
  genesis_duplicate_dedup_excess sampleParams [⟨4, 4, 5, 0⟩] []
    ⟨4, 4, 5, 0⟩ ⟨4, 4, 5, 0⟩ 0 (by decide) rfl rfl (by decide) (by decide)
